import Mathlib

/-!
Verification of the reconciliation engine of the `sync` repository
(Firebird → MySQL inventory synchronizer).

The Go code of `processor/processor.go` and `main_helpers.go` is embedded
shallowly:

* `float64` values are modelled as exact rationals (`ℚ`); the program only
  ever compares decimals after rounding to two fractional digits, and the
  specification describes the arithmetic over decimals.
* `sql.NullFloat64` / `sql.NullString` become `Option ℚ` / `Option String`.
* The in-memory MySQL snapshot (`map[int]mysqlRecord`) becomes a function
  `Int → Option mysqlRecord`.
* The worker pool is modelled by a single worker consuming the classified
  operation list in order; counters are atomic in the Go code and each
  operation is consumed by exactly one worker, so the sequential model
  captures the counter arithmetic and batching behaviour.
* Database writes are abstracted by environments that say whether a given
  bulk statement succeeds; transactions buffer their updates and apply them
  on commit only.
-/

namespace Sync

/-- Go `math.Round`: nearest integer, halves rounded away from zero. -/
def goRound (x : ℚ) : ℤ :=
  if 0 ≤ x then ⌊x + 1/2⌋ else -⌊-x + 1/2⌋

/-- `math.Round(value*100)/100`, the two-decimal rounding used throughout
`processor.go` (`roundFloat` and the rounding steps of `calculatePrices`). -/
def round2 (x : ℚ) : ℚ := (goRound (x * 100) : ℚ) / 100

/-- Embeds `roundFloat` from `processor.go`: a null value is normalized to
`0.0`, a present value is rounded to two decimals. -/
def roundFloat (value : Option ℚ) : ℚ :=
  match value with
  | some v => round2 v
  | none => 0

/-- The reference rounding written in the specification (§4.1):
`round2(x) = floor(x · 100 + 0.5) / 100`.  Stated from the spec text, for
comparison with the rounding the code performs. -/
def round2Spec (x : ℚ) : ℚ := ((⌊x * 100 + 1/2⌋ : ℤ) : ℚ) / 100

/-- The pricing configuration fields consumed by the processor
(`config.Config`): profit and installment percentages. -/
structure Config where
  Lucro : ℚ
  Parc3x : ℚ
  Parc6x : ℚ
  Parc10x : ℚ
deriving DecidableEq

/-- The four derived prices returned by `calculatePrices`. -/
structure DerivedPrices where
  prcVenda : ℚ
  prc3x : ℚ
  prc6x : ℚ
  prc10x : ℚ
deriving DecidableEq

/-- Embeds `calculatePrices` from `processor.go`: zero when the cost is SQL
NULL or exactly `0`, otherwise the four expressions of the source, each
rounded with `math.Round(x*100)/100`. -/
def calculatePrices (prcCusto : Option ℚ) (cfg : Config) : DerivedPrices :=
  match prcCusto with
  | none => ⟨0, 0, 0, 0⟩
  | some custo =>
    if custo = 0 then ⟨0, 0, 0, 0⟩
    else
      { prcVenda := round2 (custo * (1 + cfg.Lucro / 100))
        prc3x := round2 (custo * (1 + cfg.Lucro / 100) * (1 + cfg.Parc3x / 100) / 3)
        prc6x := round2 (custo * (1 + cfg.Lucro / 100) * (1 + cfg.Parc6x / 100) / 6)
        prc10x := round2 (custo * (1 + cfg.Lucro / 100) * (1 + cfg.Parc10x / 100) / 10) }

/-- The price calculator as the specification words it (§4.1): with
`M = cost · (1 + profit/100)`, every derived price is `M` scaled and
rounded; `cost` missing or zero yields four zeros.  Stated from the spec
text for the refinement comparison of claim C2 (`round2` here is the
half-away-from-zero rounding of the spec glossary). -/
def calculatePricesSpec (cost : Option ℚ) (cfg : Config) : DerivedPrices :=
  match cost with
  | none => ⟨0, 0, 0, 0⟩
  | some c =>
    if c = 0 then ⟨0, 0, 0, 0⟩
    else
      let M := c * (1 + cfg.Lucro / 100)
      { prcVenda := round2 M
        prc3x := round2 (M * (1 + cfg.Parc3x / 100) / 3)
        prc6x := round2 (M * (1 + cfg.Parc6x / 100) / 6)
        prc10x := round2 (M * (1 + cfg.Parc10x / 100) / 10) }

/-- Embeds `mysqlRecord` from `processor.go`: the nine-column target row as
loaded by `loadMySQLRecords` (the id is the map key and not stored). -/
structure mysqlRecord where
  descricao : Option String
  quantidade : Option ℚ
  valorCusto : Option ℚ
  valorUsd : Option ℚ
  prcVenda : Option ℚ
  prc3x : Option ℚ
  prc6x : Option ℚ
  prc10x : Option ℚ
deriving DecidableEq

/-- Embeds `OperationType` from `processor.go`. -/
inductive OperationType where
  | OpInsert
  | OpUpdate
  | OpIgnore
deriving DecidableEq

/-- Embeds `RowOperation` from `processor.go` (field `Type` is renamed
`opType`, `Type` being reserved in Lean). -/
structure RowOperation where
  opType : OperationType
  idEstoque : Int
  descricao : String
  qtdAtual : ℚ
  prcCusto : ℚ
  prcDolar : ℚ
  prcVenda : ℚ
  prc3x : ℚ
  prc6x : ℚ
  prc10x : ℚ
deriving DecidableEq

/-- The zero value `RowOperation{Type: OpIgnore}` returned by the classifier
for an up-to-date row. -/
def ignoreOp : RowOperation :=
  { opType := OperationType.OpIgnore, idEstoque := 0, descricao := ""
    qtdAtual := 0, prcCusto := 0, prcDolar := 0, prcVenda := 0
    prc3x := 0, prc6x := 0, prc10x := 0 }

/-- Embeds `processRowOptimized` from `processor.go`: classify one source
row against the in-memory snapshot. -/
def processRowOptimized (existingRecords : Int → Option mysqlRecord)
    (idEstoque : Int) (descricao : String) (qtdAtual : ℚ)
    (prcCusto prcDolar : Option ℚ) (cfg : Config) : RowOperation :=
  let p := calculatePrices prcCusto cfg
  let custo := roundFloat prcCusto
  let dolar := roundFloat prcDolar
  match existingRecords idEstoque with
  | none =>
    { opType := OperationType.OpInsert, idEstoque := idEstoque
      descricao := descricao, qtdAtual := qtdAtual, prcCusto := custo
      prcDolar := dolar, prcVenda := p.prcVenda, prc3x := p.prc3x
      prc6x := p.prc6x, prc10x := p.prc10x }
  | some r =>
    if r.descricao = some descricao ∧ r.quantidade = some qtdAtual ∧
        roundFloat r.valorCusto = custo ∧ roundFloat r.valorUsd = dolar ∧
        roundFloat r.prcVenda = p.prcVenda ∧ roundFloat r.prc3x = p.prc3x ∧
        roundFloat r.prc6x = p.prc6x ∧ roundFloat r.prc10x = p.prc10x then
      ignoreOp
    else
      { opType := OperationType.OpUpdate, idEstoque := idEstoque
        descricao := descricao, qtdAtual := qtdAtual, prcCusto := custo
        prcDolar := dolar, prcVenda := p.prcVenda, prc3x := p.prc3x
        prc6x := p.prc6x, prc10x := p.prc10x }

/-- Concrete target row already equal to the synced image of the source row
`(1, "A", 50, cost = NULL, usd = NULL)`: zero cost and prices. -/
def r1 : mysqlRecord :=
  { descricao := some "A", quantidade := some 50, valorCusto := some 0
    valorUsd := some 0, prcVenda := some 0, prc3x := some 0
    prc6x := some 0, prc10x := some 0 }

/-- A one-row target index holding `r1` at id 1. -/
def existing1 : Int → Option mysqlRecord := fun i => if i = 1 then some r1 else none

/-- The default pricing configuration of the specification scenarios. -/
def cfg0 : Config := ⟨40, 5, 10, 15⟩

/-- A source row as scanned from the Firebird query in `ProcessRows`. -/
structure SourceRow where
  idEstoque : Int
  descricao : String
  qtdAtual : ℚ
  prcCusto : Option ℚ
  prcDolar : Option ℚ
deriving DecidableEq

/-- Abstraction of the MySQL write path: whether a given bulk insert or bulk
update statement succeeds.  `executeBulkInsert` and `executeBulkUpdate`
return an error exactly when the corresponding oracle says `false`. -/
structure WriteEnv where
  insertOk : List RowOperation → Bool
  updateOk : List RowOperation → Bool

/-- The local state of one worker of `worker` in `processor.go`: the two
batch buffers, the three counters it contributes to, and (as
instrumentation) the sizes of the bulk statements it has attempted. -/
structure WorkerState where
  insertBatch : List RowOperation
  updateBatch : List RowOperation
  inserted : ℕ
  updated : ℕ
  ignored : ℕ
  insertAttempts : List ℕ
  updateAttempts : List ℕ
deriving DecidableEq

/-- Worker state at the start of a run. -/
def initialWorkerState : WorkerState := ⟨[], [], 0, 0, 0, [], []⟩

/-- The update half of `flushBatches` in `worker`: a non-empty update batch
is sent as one transactional bulk update; on success the counter grows and
the buffer clears, on failure the error is returned and the buffer kept. -/
def flushUpdates (env : WriteEnv) (st : WorkerState) : WorkerState × Bool :=
  if st.updateBatch.isEmpty then (st, true)
  else
    let st1 := { st with updateAttempts := st.updateAttempts ++ [st.updateBatch.length] }
    if env.updateOk st.updateBatch then
      ({ st1 with updated := st1.updated + st.updateBatch.length, updateBatch := [] }, true)
    else (st1, false)

/-- Embeds `flushBatches` of `worker` in `processor.go`: first the insert
batch (on failure it returns immediately, keeping both buffers), then the
update batch.  The `Bool` is the returned error (`false` = error), which
the caller only logs. -/
def flushBatches (env : WriteEnv) (st : WorkerState) : WorkerState × Bool :=
  if st.insertBatch.isEmpty then flushUpdates env st
  else
    let st1 := { st with insertAttempts := st.insertAttempts ++ [st.insertBatch.length] }
    if env.insertOk st.insertBatch then
      flushUpdates env { st1 with inserted := st1.inserted + st.insertBatch.length, insertBatch := [] }
    else (st1, false)

/-- `const batchSize = 500` in `worker`. -/
def workerBatchSize : ℕ := 500

/-- One iteration of the `worker` loop: buffer the operation by kind,
flush when a buffer reaches the batch size (the flush error is logged and
discarded), count `Ignore` immediately. -/
def workerStep (env : WriteEnv) (st : WorkerState) (op : RowOperation) : WorkerState :=
  match op.opType with
  | OperationType.OpInsert =>
    let st1 := { st with insertBatch := st.insertBatch ++ [op] }
    if workerBatchSize ≤ st1.insertBatch.length then (flushBatches env st1).1 else st1
  | OperationType.OpUpdate =>
    let st1 := { st with updateBatch := st.updateBatch ++ [op] }
    if workerBatchSize ≤ st1.updateBatch.length then (flushBatches env st1).1 else st1
  | OperationType.OpIgnore => { st with ignored := st.ignored + 1 }

/-- The whole `worker` body: consume the operation list in order, then
flush the remaining batches (whose error again is only logged). -/
def runWorker (env : WriteEnv) (ops : List RowOperation) : WorkerState :=
  (flushBatches env (ops.foldl (workerStep env) initialWorkerState)).1

/-- The classification pass of `ProcessRows`: every scanned source row is
classified against the snapshot and enqueued. -/
def classifyRows (index : Int → Option mysqlRecord) (cfg : Config)
    (rows : List SourceRow) : List RowOperation :=
  rows.map fun row =>
    processRowOptimized index row.idEstoque row.descricao row.qtdAtual
      row.prcCusto row.prcDolar cfg

/-- What `ProcessRows` hands back to its caller: the three counters, the
number of successfully scanned rows (`stats.TotalRows`), whether a non-nil
error was returned, and (instrumentation) the final worker state. -/
structure RunResult where
  inserted : ℕ
  updated : ℕ
  ignored : ℕ
  totalRows : ℕ
  err : Bool
  finalState : WorkerState
deriving DecidableEq

/-- Embeds the write phase of `ProcessRows` in `processor.go`, with the
worker pool collapsed to one worker consuming the queue in order (counters
are atomic and every operation is consumed by exactly one worker, so this
captures the counter arithmetic).  `rows` are the successfully scanned
source rows; `postOk` is whether `runPostProcessing` succeeds — on its
failure `ProcessRows` returns zero counters and a non-nil error.  Worker
write failures have no error path to the return value: they are logged
inside `worker` and discarded. -/
def processRowsModel (env : WriteEnv) (index : Int → Option mysqlRecord)
    (cfg : Config) (rows : List SourceRow) (postOk : Bool) : RunResult :=
  let st := runWorker env (classifyRows index cfg rows)
  if postOk then ⟨st.inserted, st.updated, st.ignored, rows.length, false, st⟩
  else ⟨0, 0, 0, 0, true, st⟩

/-- The number of `Ignore` operations in a list. -/
def countIgnoreOps (ops : List RowOperation) : ℕ :=
  (ops.filter fun op => decide (op.opType = OperationType.OpIgnore)).length

/-- Target row with all numeric fields NULL but matching description and
quantity, used to witness C10. -/
def rNull : mysqlRecord :=
  { descricao := some "B", quantidade := some 10, valorCusto := none
    valorUsd := none, prcVenda := none, prc3x := none
    prc6x := none, prc10x := none }

/-- A one-row target index holding `rNull` at id 2. -/
def existing2 : Int → Option mysqlRecord := fun i => if i = 2 then some rNull else none

/-- The quantity conserved by the worker loop: operations are either still
buffered or already counted. -/
def stSum (st : WorkerState) : ℕ :=
  st.inserted + st.updated + st.ignored + st.insertBatch.length + st.updateBatch.length

/-- The target row written by the nine-column payload of an `Insert` or
`Update` operation (the id being the key): rounded cost and usd value and
the four derived prices, all columns non-null. -/
def writtenRecord (descricao : String) (qtdAtual : ℚ)
    (prcCusto prcDolar : Option ℚ) (cfg : Config) : mysqlRecord :=
  { descricao := some descricao, quantidade := some qtdAtual
    valorCusto := some (roundFloat prcCusto)
    valorUsd := some (roundFloat prcDolar)
    prcVenda := some (calculatePrices prcCusto cfg).prcVenda
    prc3x := some (calculatePrices prcCusto cfg).prc3x
    prc6x := some (calculatePrices prcCusto cfg).prc6x
    prc10x := some (calculatePrices prcCusto cfg).prc10x }

/-- The target row produced by applying one operation's payload, as the
bulk INSERT / UPDATE statements bind it (all nine columns from the
operation). -/
def recordOfOp (op : RowOperation) : mysqlRecord :=
  { descricao := some op.descricao, quantidade := some op.qtdAtual
    valorCusto := some op.prcCusto, valorUsd := some op.prcDolar
    prcVenda := some op.prcVenda, prc3x := some op.prc3x
    prc6x := some op.prc6x, prc10x := some op.prc10x }

/-- The write environment in which every bulk statement succeeds. -/
def envAllOk : WriteEnv := ⟨fun _ => true, fun _ => true⟩

/-- The write environment in which every bulk statement fails (e.g. the
target rejects every statement). -/
def envAllFail : WriteEnv := ⟨fun _ => false, fun _ => false⟩

/-- The empty target index (first-run snapshot of an empty target). -/
def idxEmpty : Int → Option mysqlRecord := fun _ => none

/-- The scenario source row `(1, "A", 50, cost = NULL, usd = NULL)`. -/
def row1 : SourceRow := ⟨1, "A", 50, none, none⟩

/-- An index holding exactly the written image of `row1`. -/
def index1 : Int → Option mysqlRecord :=
  fun i => if i = 1 then some (writtenRecord "A" 50 none none cfg0) else none

/-- A one-element insert batch sitting in a worker buffer. -/
def opB : RowOperation :=
  { opType := OperationType.OpInsert, idEstoque := 1, descricao := "A"
    qtdAtual := 50, prcCusto := 0, prcDolar := 0, prcVenda := 0
    prc3x := 0, prc6x := 0, prc10x := 0 }

/-- Worker state holding the single buffered insert `opB`. -/
def stB : WorkerState := ⟨[opB], [], 0, 0, 0, [], []⟩

/-- Applying one UPDATE of the prepared statement to the target: the row
keyed by the operation's id, when present, gets all eight non-key columns
from the payload; an absent id matches no row. -/
def applyUpdateOp (db : Int → Option mysqlRecord) (op : RowOperation) :
    Int → Option mysqlRecord :=
  fun i => if i = op.idEstoque then (db i).map (fun _ => recordOfOp op) else db i

/-- Outcome oracle for one transaction of `executeBulkUpdate`: whether the
prepare, each per-row exec, and the commit succeed on the target server. -/
structure TxEnv where
  prepareOk : Bool
  execOk : RowOperation → Bool
  commitOk : Bool

/-- The exec loop of `executeBulkUpdate`: run the prepared statement once
per operation inside the open transaction, accumulating the transaction's
pending view; the first failing exec aborts the loop. -/
def execAll (env : TxEnv) (db : Int → Option mysqlRecord) :
    List RowOperation → Option (Int → Option mysqlRecord)
  | [] => some db
  | op :: rest =>
    if env.execOk op then execAll env (applyUpdateOp db op) rest else none

/-- Embeds `executeBulkUpdate` from `processor.go`: empty batch returns
immediately; otherwise begin a transaction, prepare one UPDATE, execute it
per row (rolling back on the first failure), and commit — pending changes
become visible only on a successful commit, so the returned state is the
original `db` whenever the `Bool` reports an error. -/
def executeBulkUpdate (env : TxEnv) (db : Int → Option mysqlRecord)
    (ops : List RowOperation) : (Int → Option mysqlRecord) × Bool :=
  if ops.isEmpty then (db, true)
  else if env.prepareOk then
    match execAll env db ops with
    | some pending => if env.commitOk then (pending, true) else (db, false)
    | none => (db, false)
  else (db, false)

/-- The transaction oracle in which everything succeeds. -/
def txAllOk : TxEnv := ⟨true, fun _ => true, true⟩

/-- The transaction oracle in which every per-row exec fails. -/
def txExecFail : TxEnv := ⟨true, fun _ => false, true⟩

/-- One concrete update operation for id 1. -/
def opU : RowOperation :=
  { opType := OperationType.OpUpdate, idEstoque := 1, descricao := "C"
    qtdAtual := 7, prcCusto := 0, prcDolar := 0, prcVenda := 0
    prc3x := 0, prc6x := 0, prc10x := 0 }

/-- The four session-tuning statements `runProcessing` executes on the
MySQL connection. -/
def setUniqueOff : String := "SET unique_checks=0"

/-- Second tuning statement. -/
def setFkOff : String := "SET foreign_key_checks=0"

/-- First restore statement. -/
def setUniqueOn : String := "SET unique_checks=1"

/-- Second restore statement. -/
def setFkOn : String := "SET foreign_key_checks=1"

/-- Embeds the session-tuning structure of `runProcessing` in
`main_helpers.go` (after both connections are open): both disabling
statements are issued, then statement preparation and row processing run —
each returning early on error — and only after a successful
`ProcessRows` are the two restoring statements issued.  Returns the
sequence of issued `SET` statements and whether the function returned
without error. -/
def runProcessingModel (prepareFails processFails : Bool) : List String × Bool :=
  let t := [setUniqueOff, setFkOff]
  if prepareFails then (t, false)
  else if processFails then (t, false)
  else (t ++ [setUniqueOn, setFkOn], true)

theorem floor_half_q : ⌊(1/2 : ℚ)⌋ = 0 := by
  rw [Int.floor_eq_zero_iff]
  constructor <;> norm_num

theorem goRound_intCast (n : ℤ) : goRound (n : ℚ) = n := by
  unfold goRound
  by_cases h : 0 ≤ (n : ℚ)
  · rw [if_pos h, Int.floor_int_add, floor_half_q, add_zero]
  · rw [if_neg h]
    have : -(n : ℚ) = ((-n : ℤ) : ℚ) := by push_cast; ring
    rw [this, Int.floor_int_add, floor_half_q, add_zero, neg_neg]

theorem round2_intCast_div (n : ℤ) : round2 ((n : ℚ) / 100) = (n : ℚ) / 100 := by
  unfold round2
  have h : ((n : ℚ) / 100) * 100 = (n : ℚ) := by
    field_simp
  rw [h, goRound_intCast]

theorem round2_idem (x : ℚ) : round2 (round2 x) = round2 x := by
  have h := round2_intCast_div (goRound (x * 100))
  simpa [round2] using h

theorem round2_zero : round2 0 = 0 := by
  have h := round2_intCast_div 0
  simpa using h

theorem round2_roundFloat (v : Option ℚ) : round2 (roundFloat v) = roundFloat v := by
  cases v with
  | none => simpa [roundFloat] using round2_zero
  | some x => simpa [roundFloat] using round2_idem x

theorem roundFloat_some_roundFloat (v : Option ℚ) :
    roundFloat (some (roundFloat v)) = roundFloat v := by
  simpa [roundFloat] using round2_roundFloat v

theorem calculatePrices_rounded (prcCusto : Option ℚ) (cfg : Config) :
    round2 (calculatePrices prcCusto cfg).prcVenda = (calculatePrices prcCusto cfg).prcVenda ∧
    round2 (calculatePrices prcCusto cfg).prc3x = (calculatePrices prcCusto cfg).prc3x ∧
    round2 (calculatePrices prcCusto cfg).prc6x = (calculatePrices prcCusto cfg).prc6x ∧
    round2 (calculatePrices prcCusto cfg).prc10x = (calculatePrices prcCusto cfg).prc10x := by
  cases prcCusto with
  | none => simp [calculatePrices, round2_zero]
  | some c =>
    by_cases hc : c = 0
    · simp [calculatePrices, hc, round2_zero]
    · simp [calculatePrices, hc, round2_idem]

/-- C2 — `calculatePrices` returns four zeros on a missing or zero cost and
otherwise computes exactly the specification's formulas `round2(M)`,
`round2(M·(1+p/100)/k)` with `M = cost·(1+profit/100)` unrounded; as a pure
function of its arguments it is deterministic. -/
theorem c2_calculatePrices_matches_spec (prcCusto : Option ℚ) (cfg : Config) :
    calculatePrices prcCusto cfg = calculatePricesSpec prcCusto cfg := by
  cases prcCusto with
  | none => rfl
  | some c =>
    by_cases hc : c = 0
    · simp [calculatePrices, calculatePricesSpec, hc]
    · simp only [calculatePrices, calculatePricesSpec, if_neg hc]

theorem goRound_neg (y : ℚ) : goRound (-y) = -goRound y := by
  unfold goRound
  by_cases h : 0 ≤ y
  · by_cases h2 : 0 ≤ -y
    · have hy : y = 0 := le_antisymm (by linarith) h
      subst hy
      norm_num
    · rw [if_neg h2, if_pos h, neg_neg]
  · have h2 : 0 ≤ -y := by linarith
    rw [if_pos h2, if_neg h, neg_neg]

/-- C4 (amended) — the rounding `roundFloat` applies to a present value is
half-away-from-zero to two decimals: it agrees with the specification's
reference `round2Spec x = floor(x·100 + 0.5)/100` on every non-negative
input, and is odd (negative inputs round away from zero), so on negative
inputs it equals `-round2Spec (-x)` rather than `round2Spec x`. -/
theorem c4_roundFloat_half_away_from_zero (x : ℚ) :
    (0 ≤ x → roundFloat (some x) = round2Spec x) ∧
    roundFloat (some (-x)) = -(roundFloat (some x)) := by
  constructor
  · intro hx
    show round2 x = round2Spec x
    unfold round2 round2Spec goRound
    rw [if_pos (by positivity)]
  · show round2 (-x) = -(round2 x)
    unfold round2
    rw [show -x * 100 = -(x * 100) by ring, goRound_neg]
    push_cast
    ring

/-- C4 (counterexample) — at `x = -1/200` (i.e. `-0.005`) the code rounds to
`-0.01` (half away from zero) while the specification's reference formula
`floor(x·100 + 0.5)/100` yields `0`, so `roundFloat` does not equal the
reference on every input. -/
theorem c4_counterexample :
    roundFloat (some (-(1/200))) = -(1/100) ∧
    round2Spec (-(1/200)) = 0 ∧
    roundFloat (some (-(1/200))) ≠ round2Spec (-(1/200)) := by
  have h1 : roundFloat (some (-(1/200 : ℚ))) = -(1/100) := by
    show round2 (-(1/200)) = -(1/100)
    unfold round2 goRound
    norm_num
  have h2 : round2Spec (-(1/200 : ℚ)) = 0 := by
    unfold round2Spec
    norm_num
  refine ⟨h1, h2, ?_⟩
  rw [h1, h2]
  norm_num

/-- C4 (witness for the amended theorem) — at `x = 3/200` (i.e. `0.015`,
non-negative) the code's rounding equals the reference and gives `0.02`,
and negating the input negates the result. -/
theorem c4_amended_witness :
    (0 : ℚ) ≤ 3/200 ∧
    roundFloat (some ((3:ℚ)/200)) = round2Spec (3/200) ∧
    roundFloat (some (-((3:ℚ)/200))) = -(roundFloat (some ((3:ℚ)/200))) := by
  have h := c4_roundFloat_half_away_from_zero ((3:ℚ)/200)
  exact ⟨by norm_num, h.1 (by norm_num), h.2⟩

/-- C1 — for a source row whose id is in the target index, the classifier
returns `Ignore` exactly when the target description and quantity are
non-null and equal to the source values and the six rounded numeric fields
equal the rounded source cost, rounded usd value and the four freshly
computed derived prices; a null target description or quantity forces
`Update`, and every `Update` differs in at least one compared field. -/
theorem c1_classifier_ignore_iff (existing : Int → Option mysqlRecord)
    (idEstoque : Int) (descricao : String) (qtdAtual : ℚ)
    (prcCusto prcDolar : Option ℚ) (cfg : Config) (r : mysqlRecord)
    (h : existing idEstoque = some r) :
    ((processRowOptimized existing idEstoque descricao qtdAtual prcCusto prcDolar cfg).opType
        = OperationType.OpIgnore ↔
      (r.descricao = some descricao ∧ r.quantidade = some qtdAtual ∧
       roundFloat r.valorCusto = roundFloat prcCusto ∧
       roundFloat r.valorUsd = roundFloat prcDolar ∧
       roundFloat r.prcVenda = (calculatePrices prcCusto cfg).prcVenda ∧
       roundFloat r.prc3x = (calculatePrices prcCusto cfg).prc3x ∧
       roundFloat r.prc6x = (calculatePrices prcCusto cfg).prc6x ∧
       roundFloat r.prc10x = (calculatePrices prcCusto cfg).prc10x)) ∧
    ((r.descricao = none ∨ r.quantidade = none) →
      (processRowOptimized existing idEstoque descricao qtdAtual prcCusto prcDolar cfg).opType
        = OperationType.OpUpdate) ∧
    ((processRowOptimized existing idEstoque descricao qtdAtual prcCusto prcDolar cfg).opType
        = OperationType.OpUpdate →
      ¬(r.descricao = some descricao ∧ r.quantidade = some qtdAtual ∧
        roundFloat r.valorCusto = roundFloat prcCusto ∧
        roundFloat r.valorUsd = roundFloat prcDolar ∧
        roundFloat r.prcVenda = (calculatePrices prcCusto cfg).prcVenda ∧
        roundFloat r.prc3x = (calculatePrices prcCusto cfg).prc3x ∧
        roundFloat r.prc6x = (calculatePrices prcCusto cfg).prc6x ∧
        roundFloat r.prc10x = (calculatePrices prcCusto cfg).prc10x)) := by
  by_cases hc : (r.descricao = some descricao ∧ r.quantidade = some qtdAtual ∧
      roundFloat r.valorCusto = roundFloat prcCusto ∧
      roundFloat r.valorUsd = roundFloat prcDolar ∧
      roundFloat r.prcVenda = (calculatePrices prcCusto cfg).prcVenda ∧
      roundFloat r.prc3x = (calculatePrices prcCusto cfg).prc3x ∧
      roundFloat r.prc6x = (calculatePrices prcCusto cfg).prc6x ∧
      roundFloat r.prc10x = (calculatePrices prcCusto cfg).prc10x)
  · have hop : processRowOptimized existing idEstoque descricao qtdAtual prcCusto prcDolar cfg
        = ignoreOp := by
      simp only [processRowOptimized, h, if_pos hc]
    refine ⟨by simp [hop, ignoreOp, hc], ?_, ?_⟩
    · intro hnull
      rcases hnull with hd | hq
      · rw [hd] at hc
        exact absurd hc.1 (by simp)
      · rw [hq] at hc
        exact absurd hc.2.1 (by simp)
    · intro hupd
      rw [hop] at hupd
      exact absurd hupd (by simp [ignoreOp])
  · have hop : (processRowOptimized existing idEstoque descricao qtdAtual prcCusto prcDolar cfg).opType
        = OperationType.OpUpdate := by
      simp only [processRowOptimized, h, if_neg hc]
    refine ⟨by simp [hop, hc], fun _ => hop, fun _ => hc⟩

/-- C1 (witness) — the classifier applied to the concrete row id 1 against
`existing1` returns `Ignore`, via the iff of the main theorem. -/
theorem c1_witness :
    (processRowOptimized existing1 1 "A" 50 none none cfg0).opType
      = OperationType.OpIgnore := by
  have h := c1_classifier_ignore_iff existing1 1 "A" 50 none none cfg0 r1 (by simp [existing1])
  exact h.1.mpr (by simp [r1, roundFloat, round2_zero, calculatePrices])

/-- C10 — a NULL in any numeric target field is normalized to `0` by
`roundFloat` before comparison: a target row with all six numeric fields
NULL but matching non-null description and quantity is classified `Ignore`
whenever the rounded source cost and usd value and the four derived prices
are all zero; only a null description or quantity unconditionally forces
`Update`. -/
theorem c10_null_numerics_normalized :
    (∀ (existing : Int → Option mysqlRecord) (idEstoque : Int) (descricao : String)
        (qtdAtual : ℚ) (prcCusto prcDolar : Option ℚ) (cfg : Config) (r : mysqlRecord),
      existing idEstoque = some r →
      r.descricao = some descricao → r.quantidade = some qtdAtual →
      r.valorCusto = none → r.valorUsd = none → r.prcVenda = none →
      r.prc3x = none → r.prc6x = none → r.prc10x = none →
      roundFloat prcCusto = 0 → roundFloat prcDolar = 0 →
      calculatePrices prcCusto cfg = ⟨0, 0, 0, 0⟩ →
      (processRowOptimized existing idEstoque descricao qtdAtual prcCusto prcDolar cfg).opType
        = OperationType.OpIgnore) ∧
    (∀ (existing : Int → Option mysqlRecord) (idEstoque : Int) (descricao : String)
        (qtdAtual : ℚ) (prcCusto prcDolar : Option ℚ) (cfg : Config) (r : mysqlRecord),
      existing idEstoque = some r →
      (r.descricao = none ∨ r.quantidade = none) →
      (processRowOptimized existing idEstoque descricao qtdAtual prcCusto prcDolar cfg).opType
        = OperationType.OpUpdate) := by
  constructor
  · intro existing idEstoque descricao qtdAtual prcCusto prcDolar cfg r
      h hdesc hqty hvc hvu hpv h3 h6 h10 hsc hsd hp
    have hc : r.descricao = some descricao ∧ r.quantidade = some qtdAtual ∧
        roundFloat r.valorCusto = roundFloat prcCusto ∧
        roundFloat r.valorUsd = roundFloat prcDolar ∧
        roundFloat r.prcVenda = (calculatePrices prcCusto cfg).prcVenda ∧
        roundFloat r.prc3x = (calculatePrices prcCusto cfg).prc3x ∧
        roundFloat r.prc6x = (calculatePrices prcCusto cfg).prc6x ∧
        roundFloat r.prc10x = (calculatePrices prcCusto cfg).prc10x := by
      rw [hvc, hvu, hpv, h3, h6, h10, hsc, hsd, hp]
      exact ⟨hdesc, hqty, rfl, rfl, rfl, rfl, rfl, rfl⟩
    simp only [processRowOptimized, h, if_pos hc]
    rfl
  · intro existing idEstoque descricao qtdAtual prcCusto prcDolar cfg r h hnull
    have hc : ¬(r.descricao = some descricao ∧ r.quantidade = some qtdAtual ∧
        roundFloat r.valorCusto = roundFloat prcCusto ∧
        roundFloat r.valorUsd = roundFloat prcDolar ∧
        roundFloat r.prcVenda = (calculatePrices prcCusto cfg).prcVenda ∧
        roundFloat r.prc3x = (calculatePrices prcCusto cfg).prc3x ∧
        roundFloat r.prc6x = (calculatePrices prcCusto cfg).prc6x ∧
        roundFloat r.prc10x = (calculatePrices prcCusto cfg).prc10x) := by
      rintro ⟨hd, hq, -⟩
      rcases hnull with hn | hn
      · rw [hn] at hd
        exact Option.noConfusion hd
      · rw [hn] at hq
        exact Option.noConfusion hq
    simp only [processRowOptimized, h, if_neg hc]

theorem flushUpdates_empty (env : WriteEnv) (st : WorkerState)
    (h : st.updateBatch.isEmpty = true) : flushUpdates env st = (st, true) := by
  simp [flushUpdates, h]

theorem flushUpdates_ok (env : WriteEnv) (st : WorkerState)
    (h : st.updateBatch.isEmpty = false) (h2 : env.updateOk st.updateBatch = true) :
    flushUpdates env st =
      ({ st with updateAttempts := st.updateAttempts ++ [st.updateBatch.length],
                 updated := st.updated + st.updateBatch.length,
                 updateBatch := [] }, true) := by
  simp [flushUpdates, h, h2]

theorem flushUpdates_fail (env : WriteEnv) (st : WorkerState)
    (h : st.updateBatch.isEmpty = false) (h2 : env.updateOk st.updateBatch = false) :
    flushUpdates env st =
      ({ st with updateAttempts := st.updateAttempts ++ [st.updateBatch.length] }, false) := by
  simp [flushUpdates, h, h2]

theorem flushBatches_emptyInsert (env : WriteEnv) (st : WorkerState)
    (h : st.insertBatch.isEmpty = true) : flushBatches env st = flushUpdates env st := by
  simp [flushBatches, h]

theorem flushBatches_insertOk (env : WriteEnv) (st : WorkerState)
    (h : st.insertBatch.isEmpty = false) (h2 : env.insertOk st.insertBatch = true) :
    flushBatches env st =
      flushUpdates env
        { st with insertAttempts := st.insertAttempts ++ [st.insertBatch.length],
                  inserted := st.inserted + st.insertBatch.length,
                  insertBatch := [] } := by
  simp [flushBatches, h, h2]

theorem flushBatches_insertFail (env : WriteEnv) (st : WorkerState)
    (h : st.insertBatch.isEmpty = false) (h2 : env.insertOk st.insertBatch = false) :
    flushBatches env st =
      ({ st with insertAttempts := st.insertAttempts ++ [st.insertBatch.length] }, false) := by
  simp [flushBatches, h, h2]

/-- C10 (witness) — the all-NULL-numerics row `rNull` is classified `Ignore`
against the source row `(2, "B", 10, cost = NULL, usd = NULL)`. -/
theorem c10_witness :
    (processRowOptimized existing2 2 "B" 10 none none cfg0).opType
      = OperationType.OpIgnore := by
  exact c10_null_numerics_normalized.1 existing2 2 "B" 10 none none cfg0 rNull
    (by simp [existing2]) rfl rfl rfl rfl rfl rfl rfl rfl rfl rfl rfl

theorem flushUpdates_ignored (env : WriteEnv) (st : WorkerState) :
    (flushUpdates env st).1.ignored = st.ignored := by
  cases h : st.updateBatch.isEmpty
  · cases h2 : env.updateOk st.updateBatch
    · rw [flushUpdates_fail env st h h2]
    · rw [flushUpdates_ok env st h h2]
  · rw [flushUpdates_empty env st h]

theorem flushBatches_ignored (env : WriteEnv) (st : WorkerState) :
    (flushBatches env st).1.ignored = st.ignored := by
  cases h : st.insertBatch.isEmpty
  · cases h2 : env.insertOk st.insertBatch
    · rw [flushBatches_insertFail env st h h2]
    · rw [flushBatches_insertOk env st h h2, flushUpdates_ignored]
  · rw [flushBatches_emptyInsert env st h, flushUpdates_ignored]

theorem flushUpdates_mono (env : WriteEnv) (st : WorkerState) :
    st.inserted ≤ (flushUpdates env st).1.inserted ∧
    st.updated ≤ (flushUpdates env st).1.updated ∧
    st.ignored ≤ (flushUpdates env st).1.ignored := by
  cases h : st.updateBatch.isEmpty
  · cases h2 : env.updateOk st.updateBatch
    · rw [flushUpdates_fail env st h h2]
      exact ⟨le_refl _, le_refl _, le_refl _⟩
    · rw [flushUpdates_ok env st h h2]
      exact ⟨le_refl _, Nat.le_add_right _ _, le_refl _⟩
  · rw [flushUpdates_empty env st h]
    exact ⟨le_refl _, le_refl _, le_refl _⟩

theorem flushBatches_mono (env : WriteEnv) (st : WorkerState) :
    st.inserted ≤ (flushBatches env st).1.inserted ∧
    st.updated ≤ (flushBatches env st).1.updated ∧
    st.ignored ≤ (flushBatches env st).1.ignored := by
  cases h : st.insertBatch.isEmpty
  · cases h2 : env.insertOk st.insertBatch
    · rw [flushBatches_insertFail env st h h2]
      exact ⟨le_refl _, le_refl _, le_refl _⟩
    · rw [flushBatches_insertOk env st h h2]
      have hm := flushUpdates_mono env
        { st with insertAttempts := st.insertAttempts ++ [st.insertBatch.length],
                  inserted := st.inserted + st.insertBatch.length,
                  insertBatch := [] }
      exact ⟨le_trans (Nat.le_add_right _ _) hm.1, hm.2.1, hm.2.2⟩
  · rw [flushBatches_emptyInsert env st h]
    exact flushUpdates_mono env st

theorem flushBatches_good (env : WriteEnv)
    (hgi : ∀ b, env.insertOk b = true) (hgu : ∀ b, env.updateOk b = true)
    (st : WorkerState) :
    (flushBatches env st).1.insertBatch = [] ∧
    (flushBatches env st).1.updateBatch = [] ∧
    stSum (flushBatches env st).1 = stSum st := by
  have hupd : ∀ s : WorkerState, s.updateBatch.isEmpty = true → s.updateBatch = [] := by
    intro s hs
    exact List.isEmpty_iff.mp hs
  have hfu : ∀ s : WorkerState, s.insertBatch = [] →
      (flushUpdates env s).1.insertBatch = [] ∧
      (flushUpdates env s).1.updateBatch = [] ∧
      stSum (flushUpdates env s).1 = stSum s := by
    intro s hs
    cases h : s.updateBatch.isEmpty
    · rw [flushUpdates_ok env s h (hgu _)]
      refine ⟨hs, rfl, ?_⟩
      simp [stSum, hs]
      omega
    · rw [flushUpdates_empty env s h]
      exact ⟨hs, hupd s h, rfl⟩
  cases h : st.insertBatch.isEmpty
  · rw [flushBatches_insertOk env st h (hgi _)]
    have hgoal := hfu { st with
        insertAttempts := st.insertAttempts ++ [st.insertBatch.length],
        inserted := st.inserted + st.insertBatch.length,
        insertBatch := [] } rfl
    refine ⟨hgoal.1, hgoal.2.1, ?_⟩
    rw [hgoal.2.2]
    simp [stSum]
    omega
  · rw [flushBatches_emptyInsert env st h]
    exact hfu st (List.isEmpty_iff.mp h)

theorem workerStep_sum_good (env : WriteEnv)
    (hgi : ∀ b, env.insertOk b = true) (hgu : ∀ b, env.updateOk b = true)
    (st : WorkerState) (op : RowOperation) :
    stSum (workerStep env st op) = stSum st + 1 := by
  cases hop : op.opType
  · simp only [workerStep, hop]
    by_cases hlen : workerBatchSize ≤ (st.insertBatch ++ [op]).length
    · rw [if_pos hlen]
      rw [(flushBatches_good env hgi hgu _).2.2]
      simp [stSum]
      omega
    · rw [if_neg hlen]
      simp [stSum]
      omega
  · simp only [workerStep, hop]
    by_cases hlen : workerBatchSize ≤ (st.updateBatch ++ [op]).length
    · rw [if_pos hlen]
      rw [(flushBatches_good env hgi hgu _).2.2]
      simp [stSum]
      omega
    · rw [if_neg hlen]
      simp [stSum]
      omega
  · simp only [workerStep, hop]
    simp [stSum]
    omega

theorem foldl_sum_good (env : WriteEnv)
    (hgi : ∀ b, env.insertOk b = true) (hgu : ∀ b, env.updateOk b = true) :
    ∀ (ops : List RowOperation) (st : WorkerState),
      stSum (ops.foldl (workerStep env) st) = stSum st + ops.length := by
  intro ops
  induction ops with
  | nil => intro st; simp
  | cons op rest ih =>
    intro st
    rw [List.foldl_cons, ih, workerStep_sum_good env hgi hgu]
    simp
    omega

theorem runWorker_good (env : WriteEnv)
    (hgi : ∀ b, env.insertOk b = true) (hgu : ∀ b, env.updateOk b = true)
    (ops : List RowOperation) :
    (runWorker env ops).inserted + (runWorker env ops).updated + (runWorker env ops).ignored
      = ops.length := by
  unfold runWorker
  have hg := flushBatches_good env hgi hgu (ops.foldl (workerStep env) initialWorkerState)
  have hsum : stSum (flushBatches env (ops.foldl (workerStep env) initialWorkerState)).1
      = ops.length := by
    rw [hg.2.2, foldl_sum_good env hgi hgu]
    simp [stSum, initialWorkerState]
  rw [stSum, hg.1, hg.2.1] at hsum
  simpa using hsum

theorem countIgnoreOps_cons (op : RowOperation) (ops : List RowOperation) :
    countIgnoreOps (op :: ops) =
      (if op.opType = OperationType.OpIgnore then 1 else 0) + countIgnoreOps ops := by
  by_cases h : op.opType = OperationType.OpIgnore
  · simp [countIgnoreOps, List.filter_cons, h]
    omega
  · simp [countIgnoreOps, List.filter_cons, h]

theorem foldl_ignored (env : WriteEnv) :
    ∀ (ops : List RowOperation) (st : WorkerState),
      (ops.foldl (workerStep env) st).ignored = st.ignored + countIgnoreOps ops := by
  intro ops
  induction ops with
  | nil => intro st; simp [countIgnoreOps]
  | cons op rest ih =>
    intro st
    rw [List.foldl_cons, ih, countIgnoreOps_cons]
    have hstep : (workerStep env st op).ignored =
        st.ignored + (if op.opType = OperationType.OpIgnore then 1 else 0) := by
      cases hop : op.opType
      · simp only [workerStep, hop]
        by_cases hlen : workerBatchSize ≤ (st.insertBatch ++ [op]).length
        · rw [if_pos hlen, flushBatches_ignored]
          simp
        · rw [if_neg hlen]
          simp
      · simp only [workerStep, hop]
        by_cases hlen : workerBatchSize ≤ (st.updateBatch ++ [op]).length
        · rw [if_pos hlen, flushBatches_ignored]
          simp
        · rw [if_neg hlen]
          simp
      · simp [workerStep, hop]
    rw [hstep]
    omega

theorem runWorker_ignored (env : WriteEnv) (ops : List RowOperation) :
    (runWorker env ops).ignored = countIgnoreOps ops := by
  unfold runWorker
  rw [flushBatches_ignored, foldl_ignored]
  simp [initialWorkerState]

theorem foldl_all_ignore (env : WriteEnv) :
    ∀ (ops : List RowOperation) (st : WorkerState),
      (∀ op ∈ ops, op.opType = OperationType.OpIgnore) →
      ops.foldl (workerStep env) st = { st with ignored := st.ignored + ops.length } := by
  intro ops
  induction ops with
  | nil => intro st _; simp
  | cons op rest ih =>
    intro st hall
    have hop : op.opType = OperationType.OpIgnore := hall op (by simp)
    rw [List.foldl_cons]
    have hstep : workerStep env st op = { st with ignored := st.ignored + 1 } := by
      simp [workerStep, hop]
    rw [hstep, ih _ (fun o ho => hall o (by simp [ho]))]
    have harith : st.ignored + 1 + rest.length = st.ignored + (rest.length + 1) := by omega
    simp [harith]

theorem runWorker_all_ignore (env : WriteEnv) (ops : List RowOperation)
    (h : ∀ op ∈ ops, op.opType = OperationType.OpIgnore) :
    runWorker env ops = { initialWorkerState with ignored := ops.length } := by
  unfold runWorker
  rw [foldl_all_ignore env ops initialWorkerState h]
  have h1 : ({ initialWorkerState with
      ignored := initialWorkerState.ignored + ops.length } : WorkerState).insertBatch.isEmpty
      = true := rfl
  have h2 : ({ initialWorkerState with
      ignored := initialWorkerState.ignored + ops.length } : WorkerState).updateBatch.isEmpty
      = true := rfl
  rw [flushBatches_emptyInsert env _ h1, flushUpdates_empty env _ h2]
  simp [initialWorkerState]

/-- C3 — write followed by classify converges in one step: (a) the payload
of every emitted `Insert`/`Update` is `writtenRecord`; (b) a source row
whose index entry is exactly its `writtenRecord` classifies as `Ignore`;
(c) hence a second run over an unchanged source, against an index holding
every row's written payload, yields `inserted = 0`, `updated = 0` and
`ignored` equal to the number of processed rows — for any write
environment. -/
theorem c3_write_then_classify_ignores :
    (∀ (index : Int → Option mysqlRecord) (idEstoque : Int) (descricao : String)
        (qtdAtual : ℚ) (prcCusto prcDolar : Option ℚ) (cfg : Config),
      (processRowOptimized index idEstoque descricao qtdAtual prcCusto prcDolar cfg).opType
          ≠ OperationType.OpIgnore →
      recordOfOp (processRowOptimized index idEstoque descricao qtdAtual prcCusto prcDolar cfg)
          = writtenRecord descricao qtdAtual prcCusto prcDolar cfg) ∧
    (∀ (index : Int → Option mysqlRecord) (idEstoque : Int) (descricao : String)
        (qtdAtual : ℚ) (prcCusto prcDolar : Option ℚ) (cfg : Config),
      index idEstoque = some (writtenRecord descricao qtdAtual prcCusto prcDolar cfg) →
      (processRowOptimized index idEstoque descricao qtdAtual prcCusto prcDolar cfg).opType
          = OperationType.OpIgnore) ∧
    (∀ (env : WriteEnv) (index : Int → Option mysqlRecord) (cfg : Config)
        (rows : List SourceRow),
      (∀ row ∈ rows, index row.idEstoque
          = some (writtenRecord row.descricao row.qtdAtual row.prcCusto row.prcDolar cfg)) →
      (processRowsModel env index cfg rows true).inserted = 0 ∧
      (processRowsModel env index cfg rows true).updated = 0 ∧
      (processRowsModel env index cfg rows true).ignored = rows.length) := by
  have key : ∀ (index : Int → Option mysqlRecord) (idEstoque : Int) (descricao : String)
      (qtdAtual : ℚ) (prcCusto prcDolar : Option ℚ) (cfg : Config),
      index idEstoque = some (writtenRecord descricao qtdAtual prcCusto prcDolar cfg) →
      (processRowOptimized index idEstoque descricao qtdAtual prcCusto prcDolar cfg).opType
        = OperationType.OpIgnore := by
    intro index idEstoque descricao qtdAtual prcCusto prcDolar cfg h
    have hc : (writtenRecord descricao qtdAtual prcCusto prcDolar cfg).descricao
          = some descricao ∧
        (writtenRecord descricao qtdAtual prcCusto prcDolar cfg).quantidade = some qtdAtual ∧
        roundFloat (writtenRecord descricao qtdAtual prcCusto prcDolar cfg).valorCusto
          = roundFloat prcCusto ∧
        roundFloat (writtenRecord descricao qtdAtual prcCusto prcDolar cfg).valorUsd
          = roundFloat prcDolar ∧
        roundFloat (writtenRecord descricao qtdAtual prcCusto prcDolar cfg).prcVenda
          = (calculatePrices prcCusto cfg).prcVenda ∧
        roundFloat (writtenRecord descricao qtdAtual prcCusto prcDolar cfg).prc3x
          = (calculatePrices prcCusto cfg).prc3x ∧
        roundFloat (writtenRecord descricao qtdAtual prcCusto prcDolar cfg).prc6x
          = (calculatePrices prcCusto cfg).prc6x ∧
        roundFloat (writtenRecord descricao qtdAtual prcCusto prcDolar cfg).prc10x
          = (calculatePrices prcCusto cfg).prc10x := by
      refine ⟨rfl, rfl, roundFloat_some_roundFloat prcCusto,
        roundFloat_some_roundFloat prcDolar, ?_, ?_, ?_, ?_⟩
      · exact (calculatePrices_rounded prcCusto cfg).1
      · exact (calculatePrices_rounded prcCusto cfg).2.1
      · exact (calculatePrices_rounded prcCusto cfg).2.2.1
      · exact (calculatePrices_rounded prcCusto cfg).2.2.2
    simp only [processRowOptimized, h, if_pos hc]
    rfl
  refine ⟨?_, key, ?_⟩
  · intro index idEstoque descricao qtdAtual prcCusto prcDolar cfg hne
    rcases hidx : index idEstoque with _ | r
    · simp only [processRowOptimized, hidx]
      rfl
    · by_cases hc : (r.descricao = some descricao ∧ r.quantidade = some qtdAtual ∧
          roundFloat r.valorCusto = roundFloat prcCusto ∧
          roundFloat r.valorUsd = roundFloat prcDolar ∧
          roundFloat r.prcVenda = (calculatePrices prcCusto cfg).prcVenda ∧
          roundFloat r.prc3x = (calculatePrices prcCusto cfg).prc3x ∧
          roundFloat r.prc6x = (calculatePrices prcCusto cfg).prc6x ∧
          roundFloat r.prc10x = (calculatePrices prcCusto cfg).prc10x)
      · exfalso
        apply hne
        simp only [processRowOptimized, hidx, if_pos hc]
        rfl
      · simp only [processRowOptimized, hidx, if_neg hc]
        rfl
  · intro env index cfg rows hall
    have hops : ∀ op ∈ classifyRows index cfg rows, op.opType = OperationType.OpIgnore := by
      intro op hop
      rcases List.mem_map.mp hop with ⟨row, hrow, hrfl⟩
      rw [← hrfl]
      exact key index row.idEstoque row.descricao row.qtdAtual row.prcCusto row.prcDolar cfg
        (hall row hrow)
    have hrw := runWorker_all_ignore env (classifyRows index cfg rows) hops
    have hlen : (classifyRows index cfg rows).length = rows.length := by
      simp [classifyRows]
    constructor
    · simp [processRowsModel, hrw, initialWorkerState]
    constructor
    · simp [processRowsModel, hrw, initialWorkerState]
    · simp [processRowsModel, hrw, initialWorkerState, hlen]

/-- C3 (witness) — replaying `row1` against the index that holds its
written image yields no inserts, no updates and one ignore, even in the
all-failing write environment (no write is attempted). -/
theorem c3_witness :
    (processRowsModel envAllFail index1 cfg0 [row1] true).inserted = 0 ∧
    (processRowsModel envAllFail index1 cfg0 [row1] true).updated = 0 ∧
    (processRowsModel envAllFail index1 cfg0 [row1] true).ignored = 1 := by
  have h := c3_write_then_classify_ignores.2.2 envAllFail index1 cfg0 [row1]
    (by intro row hrow
        simp only [List.mem_singleton] at hrow
        subst hrow
        simp [index1, row1])
  simpa using h

/-- C5 (amended) — when every bulk write of the run succeeds and the run
returns no error, the counters partition the scanned rows:
`inserted + updated + ignored = totalRows`; and each counter is
monotonically non-decreasing across every worker step. -/
theorem c5_counters_partition (env : WriteEnv) :
    (∀ (index : Int → Option mysqlRecord) (cfg : Config) (rows : List SourceRow)
        (postOk : Bool),
      (∀ b, env.insertOk b = true) → (∀ b, env.updateOk b = true) →
      (processRowsModel env index cfg rows postOk).err = false →
      (processRowsModel env index cfg rows postOk).inserted
        + (processRowsModel env index cfg rows postOk).updated
        + (processRowsModel env index cfg rows postOk).ignored
        = (processRowsModel env index cfg rows postOk).totalRows) ∧
    (∀ (st : WorkerState) (op : RowOperation),
      st.inserted ≤ (workerStep env st op).inserted ∧
      st.updated ≤ (workerStep env st op).updated ∧
      st.ignored ≤ (workerStep env st op).ignored) := by
  constructor
  · intro index cfg rows postOk hgi hgu herr
    cases postOk
    · exact absurd herr (by simp [processRowsModel])
    · have hsum := runWorker_good env hgi hgu (classifyRows index cfg rows)
      have hlen : (classifyRows index cfg rows).length = rows.length := by
        simp [classifyRows]
      simpa [processRowsModel, hlen] using hsum
  · intro st op
    cases hop : op.opType
    · simp only [workerStep, hop]
      by_cases hlen : workerBatchSize ≤ (st.insertBatch ++ [op]).length
      · rw [if_pos hlen]
        have hm := flushBatches_mono env { st with insertBatch := st.insertBatch ++ [op] }
        exact hm
      · rw [if_neg hlen]
        exact ⟨le_refl _, le_refl _, le_refl _⟩
    · simp only [workerStep, hop]
      by_cases hlen : workerBatchSize ≤ (st.updateBatch ++ [op]).length
      · rw [if_pos hlen]
        have hm := flushBatches_mono env { st with updateBatch := st.updateBatch ++ [op] }
        exact hm
      · rw [if_neg hlen]
        exact ⟨le_refl _, le_refl _, le_refl _⟩
    · simp only [workerStep, hop]
      exact ⟨le_refl _, le_refl _, Nat.le_succ _⟩

/-- C5 (witness) — on the one-row first run with all writes succeeding,
the counters sum to the row count. -/
theorem c5_witness :
    (processRowsModel envAllOk idxEmpty cfg0 [row1] true).inserted
      + (processRowsModel envAllOk idxEmpty cfg0 [row1] true).updated
      + (processRowsModel envAllOk idxEmpty cfg0 [row1] true).ignored
      = (processRowsModel envAllOk idxEmpty cfg0 [row1] true).totalRows := by
  exact (c5_counters_partition envAllOk).1 idxEmpty cfg0 [row1] true
    (fun b => rfl) (fun b => rfl) rfl

/-- C5 (counterexample) — with the insert batch failing, `ProcessRows`
still returns no error, but the counters sum to `0` while `totalRows = 1`:
the claimed equality fails on an error-free run. -/
theorem c5_counterexample :
    (processRowsModel envAllFail idxEmpty cfg0 [row1] true).err = false ∧
    (processRowsModel envAllFail idxEmpty cfg0 [row1] true).totalRows = 1 ∧
    (processRowsModel envAllFail idxEmpty cfg0 [row1] true).inserted
      + (processRowsModel envAllFail idxEmpty cfg0 [row1] true).updated
      + (processRowsModel envAllFail idxEmpty cfg0 [row1] true).ignored = 0 := by
  exact ⟨rfl, rfl, rfl⟩

/-- C6 (amended) — a failed bulk write is not fatal and is not surfaced:
the error returned by `ProcessRows` is independent of the write
environment (it reflects only the post-processing phase), and the worker
keeps consuming operations — the `ignored` counter always ends up equal to
the number of `Ignore` operations, whatever statements fail. -/
theorem c6_write_errors_swallowed :
    (∀ (env : WriteEnv) (index : Int → Option mysqlRecord) (cfg : Config)
        (rows : List SourceRow) (postOk : Bool),
      (processRowsModel env index cfg rows postOk).err = !postOk) ∧
    (∀ (env : WriteEnv) (index : Int → Option mysqlRecord) (cfg : Config)
        (rows : List SourceRow),
      (processRowsModel env index cfg rows true).ignored
        = countIgnoreOps (classifyRows index cfg rows)) := by
  constructor
  · intro env index cfg rows postOk
    cases postOk
    · rfl
    · rfl
  · intro env index cfg rows
    have h := runWorker_ignored env (classifyRows index cfg rows)
    simpa [processRowsModel] using h

/-- C6 (counterexample) — a run in which the only insert batch fails (one
attempt was made, nothing was inserted) still returns no error to the
caller, refuting fail-fast abortion with a surfaced write error. -/
theorem c6_counterexample :
    (processRowsModel envAllFail idxEmpty cfg0 [row1] true).finalState.insertAttempts = [1] ∧
    (processRowsModel envAllFail idxEmpty cfg0 [row1] true).inserted = 0 ∧
    (processRowsModel envAllFail idxEmpty cfg0 [row1] true).err = false := by
  exact ⟨rfl, rfl, rfl⟩

/-- C7 (amended) — a failed bulk insert is not retried with a halved batch:
the flush records exactly one attempt of the full batch size, keeps the
batch buffered unchanged, leaves the `inserted` counter untouched, and
reports the failure only through the return flag the worker discards;
moreover `ProcessRows` never surfaces a write error. -/
theorem c7_no_halving_no_retry (env : WriteEnv) (st : WorkerState) :
    st.insertBatch.isEmpty = false → env.insertOk st.insertBatch = false →
    ((flushBatches env st).1.insertBatch = st.insertBatch ∧
     (flushBatches env st).1.inserted = st.inserted ∧
     (flushBatches env st).1.insertAttempts
       = st.insertAttempts ++ [st.insertBatch.length] ∧
     (flushBatches env st).2 = false ∧
     (∀ (index : Int → Option mysqlRecord) (cfg : Config) (rows : List SourceRow),
       (processRowsModel env index cfg rows true).err = false)) := by
  intro h h2
  rw [flushBatches_insertFail env st h h2]
  exact ⟨rfl, rfl, rfl, rfl, fun index cfg rows => rfl⟩

/-- C7 (witness for the amended theorem) — flushing the concrete
one-element batch under the all-failing environment keeps the batch,
counts nothing, records one full-size attempt and reports failure only in
the discarded flag. -/
theorem c7_witness :
    (flushBatches envAllFail stB).1.insertBatch = [opB] ∧
    (flushBatches envAllFail stB).1.inserted = 0 ∧
    (flushBatches envAllFail stB).1.insertAttempts = [1] ∧
    (flushBatches envAllFail stB).2 = false := by
  have h := c7_no_halving_no_retry envAllFail stB rfl rfl
  exact ⟨h.1, h.2.1, h.2.2.1, h.2.2.2.1⟩

/-- C7 (counterexample) — in the run whose only insert batch fails, the
worker makes exactly one attempt (no halved retry: the buffered batch
still has its full length afterwards) and no `WriteError` reaches the
caller, contrary to the claimed halve-and-retry-once behaviour. -/
theorem c7_counterexample :
    (processRowsModel envAllFail idxEmpty cfg0 [row1] true).finalState.insertAttempts
      = [1] ∧
    (processRowsModel envAllFail idxEmpty cfg0 [row1] true).finalState.insertBatch.length
      = 1 ∧
    (processRowsModel envAllFail idxEmpty cfg0 [row1] true).err = false := by
  exact ⟨rfl, rfl, rfl⟩

theorem execAll_all_ok (env : TxEnv) :
    ∀ (ops : List RowOperation) (db : Int → Option mysqlRecord),
      (∀ op ∈ ops, env.execOk op = true) →
      execAll env db ops = some (ops.foldl applyUpdateOp db) := by
  intro ops
  induction ops with
  | nil => intro db _; rfl
  | cons op rest ih =>
    intro db hall
    rw [execAll, if_pos (hall op (by simp)), List.foldl_cons]
    exact ih _ (fun o ho => hall o (by simp [ho]))

theorem execAll_some_fails (env : TxEnv) :
    ∀ (ops : List RowOperation) (db : Int → Option mysqlRecord),
      (∃ op ∈ ops, env.execOk op = false) →
      execAll env db ops = none := by
  intro ops
  induction ops with
  | nil => intro db h; exact absurd h (by simp)
  | cons op rest ih =>
    intro db h
    cases hop : env.execOk op
    · rw [execAll, if_neg (by simp [hop])]
    · rcases h with ⟨o, ho, hfail⟩
      rcases List.mem_cons.mp ho with hrfl | hmem
      · rw [hrfl] at hfail
        rw [hfail] at hop
        exact Bool.noConfusion hop
      · rw [execAll, if_pos hop]
        exact ih _ ⟨o, hmem, hfail⟩

/-- C8 — `executeBulkUpdate` is atomic per batch: if preparation fails, or
any per-row exec fails, or the commit fails, the returned state is the
original target (full rollback, every row of the batch unchanged) and an
error is reported; if everything succeeds, the returned state applies all
N updates in buffer order, committed together. -/
theorem c8_bulk_update_atomic (env : TxEnv) (db : Int → Option mysqlRecord)
    (ops : List RowOperation) :
    (ops.isEmpty = false →
      (env.prepareOk = false ∨ (∃ op ∈ ops, env.execOk op = false) ∨
        env.commitOk = false) →
      executeBulkUpdate env db ops = (db, false)) ∧
    (env.prepareOk = true → (∀ op ∈ ops, env.execOk op = true) →
      env.commitOk = true →
      executeBulkUpdate env db ops = (ops.foldl applyUpdateOp db, true)) := by
  constructor
  · intro hne hfail
    rw [executeBulkUpdate, if_neg (by simp [hne])]
    rcases hfail with hp | hexec | hc
    · rw [if_neg (by simp [hp])]
    · cases hp : env.prepareOk
      · rw [if_neg (by simp)]
      · rw [if_pos rfl, execAll_some_fails env ops db hexec]
    · cases hp : env.prepareOk
      · rw [if_neg (by simp)]
      · rw [if_pos rfl]
        cases hall : execAll env db ops
        · rfl
        · simp [hc]
  · intro hp hall hc
    cases hne : ops.isEmpty
    · rw [executeBulkUpdate, if_neg (by simp [hne]), if_pos hp,
        execAll_all_ok env ops db hall]
      simp [hc]
    · have hnil : ops = [] := List.isEmpty_iff.mp hne
      subst hnil
      rfl

/-- C8 (witness) — on the one-row target, the singleton batch `[opU]`
commits to the folded update when everything succeeds, and leaves the
target untouched with an error when its exec fails. -/
theorem c8_witness :
    executeBulkUpdate txAllOk existing1 [opU]
      = ([opU].foldl applyUpdateOp existing1, true) ∧
    executeBulkUpdate txExecFail existing1 [opU] = (existing1, false) := by
  constructor
  · exact (c8_bulk_update_atomic txAllOk existing1 [opU]).2 rfl
      (fun op _ => rfl) rfl
  · exact (c8_bulk_update_atomic txExecFail existing1 [opU]).1 rfl
      (Or.inr (Or.inl ⟨opU, by simp, rfl⟩))

/-- C9 (amended) — the two tunings are applied before the write phase, in
order, and are restored at the end of a successful run; but on every error
return (statement preparation or processing failing) the function returns
early and neither restore statement is ever issued. -/
theorem c9_tunings_restored_only_on_success :
    (∀ prepareFails processFails : Bool,
      (runProcessingModel prepareFails processFails).2 = true →
      (runProcessingModel prepareFails processFails).1
        = [setUniqueOff, setFkOff, setUniqueOn, setFkOn]) ∧
    (∀ prepareFails processFails : Bool,
      (runProcessingModel prepareFails processFails).2 = false →
      setUniqueOn ∉ (runProcessingModel prepareFails processFails).1 ∧
      setFkOn ∉ (runProcessingModel prepareFails processFails).1) := by
  constructor
  · intro prepareFails processFails h
    cases prepareFails
    · cases processFails
      · rfl
      · exact absurd h (by simp [runProcessingModel])
    · exact absurd h (by simp [runProcessingModel])
  · intro prepareFails processFails h
    cases prepareFails
    · cases processFails
      · exact absurd h (by simp [runProcessingModel])
      · constructor
        · simp [runProcessingModel, setUniqueOn, setUniqueOff, setFkOff]
        · simp [runProcessingModel, setFkOn, setUniqueOff, setFkOff]
    · constructor
      · simp [runProcessingModel, setUniqueOn, setUniqueOff, setFkOff]
      · simp [runProcessingModel, setFkOn, setUniqueOff, setFkOff]

/-- C9 (counterexample) — when processing fails, `runProcessing` returns
an error and the issued statements are exactly the two disabling tunings:
the restore statements are never executed, refuting restore-on-every-case. -/
theorem c9_counterexample :
    runProcessingModel false true = ([setUniqueOff, setFkOff], false) ∧
    setUniqueOn ∉ (runProcessingModel false true).1 ∧
    setFkOn ∉ (runProcessingModel false true).1 := by
  refine ⟨rfl, ?_, ?_⟩
  · simp [runProcessingModel, setUniqueOn, setUniqueOff, setFkOff]
  · simp [runProcessingModel, setFkOn, setUniqueOff, setFkOff]

/-- C9 (witness for the amended theorem) — a successful run issues all
four statements in order; a run with a processing error issues no restore. -/
theorem c9_witness :
    (runProcessingModel false false).1
      = [setUniqueOff, setFkOff, setUniqueOn, setFkOn] ∧
    setUniqueOn ∉ (runProcessingModel false true).1 := by
  constructor
  · exact c9_tunings_restored_only_on_success.1 false false rfl
  · exact (c9_tunings_restored_only_on_success.2 false true rfl).1

end Sync
